import Mathlib

/-!
Verification of the remote-connection and ref-replication layer of the zap
synchronization server (`vendor/github.com/sourcegraph/zap/server_remotes.go`).

The Go code is shallowly embedded: the endpoint-to-client registry
(`serverRemotes.conn`, a Go map guarded by `sr.mu`) becomes an association
list with Go-map insert/delete semantics; the operations `getClient`,
`getOrCreateClient`, `closeAndRemoveClient` and the disconnect-watcher
goroutine become pure functions returning the new state together with the
observable effects (factory invocation, callback registration, watcher
start, RPC calls issued, panics as `Option.none`).  Clients are an abstract
type `C`, matching the `UpstreamClient` interface.
-/

namespace Zap

/-- Endpoint name used by the concrete witness scenarios. -/
def peerA : String := "peerA"

/-- Endpoint name used by the concrete witness scenarios. -/
def endpointA : String := "a"

/-- Endpoint name used by the concrete witness scenarios. -/
def endpointB : String := "b"

/-- Endpoint name of the C2 witness repository's remote. -/
def endpointE1 : String := "e1"

/-- Error message of the failing factory in the C7 witness. -/
def dialFailedMsg : String := "dial failed"

/-- Association-list lookup, the embedding of a Go map read `m[k]`. -/
def alookup {α : Type} : List (String × α) → String → Option α
  | [], _ => none
  | (k, v) :: rest, key => if k = key then some v else alookup rest key

/-- Go map assignment `m[k] = v`: replace the entry if the key is present,
otherwise append a fresh entry. -/
def mapInsert {α : Type} (m : List (String × α)) (k : String) (v : α) :
    List (String × α) :=
  if (alookup m k).isSome then
    m.map (fun p => if p.1 = k then (k, v) else p)
  else
    m ++ [(k, v)]

/-- Go map deletion `delete(m, k)`: drop every entry with the key. -/
def mapDelete {α : Type} (m : List (String × α)) (k : String) :
    List (String × α) :=
  m.filter (fun p => p.1 ≠ k)

/-- A well-formed Go map has no duplicate keys. -/
def keysNodup {α : Type} (m : List (String × α)) : Prop :=
  (m.map Prod.fst).Nodup

instance decidableKeysNodup {α : Type} (m : List (String × α)) :
    Decidable (keysNodup m) := by
  unfold keysNodup
  infer_instance

/-- The state of `serverRemotes`: the endpoint-to-client map `conn` (a nil Go
map is the empty list) and the injected connection factory `newClient` (`nil`
before `ConfigureRemoteClientFunc` is called).  Clients (`UpstreamClient`)
are an abstract type `C`; the factory returns a client or an error. -/
structure ServerRemotes (C : Type) where
  conn : List (String × C)
  newClient : Option (String → Except String C)

/-- Method `(sr *serverRemotes) getClient`: non-blocking lookup of the client for an
endpoint, returning the Go pair (client-or-nil, found). -/
def getClient {C : Type} (sr : ServerRemotes C) (endpoint : String) :
    Option C × Bool :=
  match alookup sr.conn endpoint with
  | some c => (some c, true)
  | none => (none, false)

/-- Method `(s *Server) ConfigureRemoteClientFunc`: sets the connection factory;
panics (modelled as `none`) when the factory is already set. -/
def configureRemoteClientFunc {C : Type} (sr : ServerRemotes C)
    (f : String → Except String C) : Option (ServerRemotes C) :=
  match sr.newClient with
  | some _ => none
  | none => some { sr with newClient := some f }

/-- The observable outcome of one `getOrCreateClient` call: the returned
client or error, the new registry state, and which side effects the call
performed (factory invocation, `SetRefUpdateCallback`,
`SetRefUpdateSymbolicCallback`, and the start of the disconnect-watcher
goroutine). -/
structure GetOrCreateResult (C : Type) where
  result : Except String C
  state : ServerRemotes C
  factoryInvoked : Bool
  refUpdateCallbackSet : Bool
  refUpdateSymbolicCallbackSet : Bool
  disconnectWatcherStarted : Bool

/-- Method `(sr *serverRemotes) getOrCreateClient`: panics (`none`) when the factory
is unset; returns the existing client when the endpoint is present; otherwise
invokes the factory and, on success, starts the disconnect watcher, registers
both push callbacks, and stores the new client under the endpoint.  On a
factory error the error is returned and the registry is left unchanged. -/
def getOrCreateClient {C : Type} (sr : ServerRemotes C) (endpoint : String) :
    Option (GetOrCreateResult C) :=
  match sr.newClient with
  | none => none
  | some factory =>
    match alookup sr.conn endpoint with
    | some cl => some ⟨Except.ok cl, sr, false, false, false, false⟩
    | none =>
      match factory endpoint with
      | Except.error e => some ⟨Except.error e, sr, true, false, false, false⟩
      | Except.ok cl =>
        some ⟨Except.ok cl,
              { sr with conn := mapInsert sr.conn endpoint cl },
              true, true, true, true⟩

/-- Outcome of a non-panicking `closeAndRemoveClient`: the new registry state
and the client on which `Close` was invoked. -/
structure CloseRemoveResult (C : Type) where
  state : ServerRemotes C
  closedClient : C

/-- Method `(sr *serverRemotes) closeAndRemoveClient`: panics (`none`) when the
endpoint has no entry; otherwise deletes the entry and calls `Close` on the
stored client (recorded as `closedClient`). -/
def closeAndRemoveClient {C : Type} (sr : ServerRemotes C) (endpoint : String) :
    Option (CloseRemoveResult C) :=
  match alookup sr.conn endpoint with
  | none => none
  | some cl =>
    some ⟨{ sr with conn := mapDelete sr.conn endpoint }, cl⟩

/-- One transition of the registry: the four operations that touch
`sr.conn`, each performed under `sr.mu`.  `getClientStep` records that
`getClient` never mutates the registry; `watcherRemove` is the
`delete(sr.conn, endpoint)` performed by the disconnect-watcher goroutine. -/
inductive RegistryStep {C : Type} : ServerRemotes C → ServerRemotes C → Prop where
  | configure (sr : ServerRemotes C) (f : String → Except String C)
      (sr' : ServerRemotes C) :
      configureRemoteClientFunc sr f = some sr' → RegistryStep sr sr'
  | getClientStep (sr : ServerRemotes C) (e : String) : RegistryStep sr sr
  | getOrCreate (sr : ServerRemotes C) (e : String) (r : GetOrCreateResult C) :
      getOrCreateClient sr e = some r → RegistryStep sr r.state
  | closeRemove (sr : ServerRemotes C) (e : String) (r : CloseRemoveResult C) :
      closeAndRemoveClient sr e = some r → RegistryStep sr r.state
  | watcherRemove (sr : ServerRemotes C) (e : String) :
      RegistryStep sr { sr with conn := mapDelete sr.conn e }

/-- The registry states reachable from the server's initial state (nil map,
no factory configured) by the registry operations. -/
inductive ReachableRemotes {C : Type} : ServerRemotes C → Prop where
  | init : ReachableRemotes ⟨[], none⟩
  | step (sr sr' : ServerRemotes C) :
      ReachableRemotes sr → RegistryStep sr sr' → ReachableRemotes sr'

/-- The Go contexts appearing in the disconnect-watcher and reconnection
path: `context.Background()` (passed to `backoff.RetryNotifyWithContext`, so
the retry loop's RPCs and backoff sleeps run under it) and the server's
background context `sr.parent.bgCtx` (used for the dial inside
`getOrCreateClient`). -/
inductive CtxKind where
  | background
  | serverBg
deriving DecidableEq

/-- Which contexts shutdown cancels.  `context.Background()` is never
cancelled (Go standard library).  Modelled from the spec: the server's
background context is the cancellable context tied to server shutdown
(`Server.bgCtx` is not under src/). -/
def ctxRespectsShutdown : CtxKind → Bool
  | CtxKind.background => false
  | CtxKind.serverBg => true

/-- The observable events of the disconnect-watcher goroutine, in order:
the registry deletion, each reconnect dial (`getOrCreateClient` inside
`tryReconnect`), the re-establishment RPCs of a successful attempt, and the
backoff sleep after a failed attempt.  Each suspension point is tagged with
the context it runs under. -/
inductive WatcherEvent where
  | removeEntry (endpoint : String)
  | dialAttempt (endpoint : String) (ctx : CtxKind)
  | reestablishRpc (endpoint : String) (ctx : CtxKind)
  | backoffSleep (ctx : CtxKind)
deriving DecidableEq

/-- The events of one retry attempt: a dial (the `getOrCreateClient` call,
whose network dial runs under `sr.parent.bgCtx`), followed on success by the
re-establishment RPCs and on failure by the backoff sleep, both under the
retry loop's context, which is derived from `context.Background()`. -/
def attemptEvents (endpoint : String) (ok : Bool) : List WatcherEvent :=
  WatcherEvent.dialAttempt endpoint CtxKind.serverBg ::
    (if ok then [WatcherEvent.reestablishRpc endpoint CtxKind.background]
     else [WatcherEvent.backoffSleep CtxKind.background])

/-- The ordered event trace of the disconnect-watcher goroutine after the
disconnect signal fires: if the server is closed it returns immediately;
otherwise it deletes the endpoint's registry entry and runs the retry loop,
whose attempt outcomes are given by `outcomes`. -/
def watcherTrace (closed : Bool) (endpoint : String) (outcomes : List Bool) :
    List WatcherEvent :=
  if closed then []
  else WatcherEvent.removeEntry endpoint :: outcomes.flatMap (attemptEvents endpoint)

/-- Whether a watcher event's suspension point runs under a context that
server shutdown cancels; the registry deletion is instantaneous and counts
as respecting shutdown. -/
def eventRespectsShutdown : WatcherEvent → Bool
  | WatcherEvent.removeEntry _ => true
  | WatcherEvent.dialAttempt _ c => ctxRespectsShutdown c
  | WatcherEvent.reestablishRpc _ c => ctxRespectsShutdown c
  | WatcherEvent.backoffSleep c => ctxRespectsShutdown c

/-- Type `RepoRemoteConfiguration`: one entry of `repo.config.Remotes` — the
remote's endpoint, the repository name on the remote, and the refspec. -/
structure RepoRemoteConfiguration where
  Endpoint : String
  Repo : String
  Refspec : String
deriving DecidableEq

/-- Type `RefConfiguration`: one entry of `repo.config.Refs` — the upstream
remote name and the overwrite flag. -/
structure RefConfiguration where
  Upstream : String
  Overwrite : Bool
deriving DecidableEq

/-- Type `serverRef`: the current value of a ref in the ref database — git base
revision, branch, and the full history (`o.history()`). -/
structure ServerRef where
  gitBase : String
  gitBranch : String
  history : List String
deriving DecidableEq

/-- The per-repository state used by `tryReconnect`: the configuration maps
`config.Remotes` and `config.Refs`, and the ref database (`repo.refdb`,
embedded as name-to-value lookup). -/
structure ServerRepo where
  remotes : List (String × RepoRemoteConfiguration)
  refs : List (String × RefConfiguration)
  refdb : List (String × ServerRef)

/-- An upstream RPC issued during re-establishment: `RepoWatch` with the
remote repo name and refspec, or `RefUpdate` with the `RefIdentifier`
(remote repo, ref), the force flag, and the pushed `RefState` (base
revision, branch, history). -/
inductive UpstreamCall where
  | repoWatch (repo refspec : String)
  | refUpdate (repo ref : String) (force : Bool)
      (gitBase gitBranch : String) (history : List String)
deriving DecidableEq

/-- The forced ref updates that `reestablishRepo` pushes for one remote of
the repository: for each entry of `config.Refs` whose ref currently exists
in the ref database and is configured with `Overwrite` and with `Upstream`
equal to this remote's name, a `RefUpdate` with `Force: true` carrying the
ref's current base revision, branch, and full history. -/
def refUpdateCallsForRemote (remoteName : String)
    (remote : RepoRemoteConfiguration) (repo : ServerRepo) :
    List UpstreamCall :=
  repo.refs.filterMap (fun p =>
    match alookup repo.refdb p.1 with
    | some o =>
      if p.2.Overwrite ∧ p.2.Upstream = remoteName then
        some (UpstreamCall.refUpdate remote.Repo p.1 true
          o.gitBase o.gitBranch o.history)
      else none
    | none => none)

/-- The RPC calls that `reestablishRepo` inside `tryReconnect` issues for
one repository (under that repository's lock), assuming every RPC succeeds:
for each remote whose endpoint equals the reconnected one, the `RepoWatch`
for that remote's repo/refspec followed by the forced updates of the
matching overwrite refs. -/
def reestablishRepoCalls (endpoint : String) (repo : ServerRepo) :
    List UpstreamCall :=
  repo.remotes.flatMap (fun q =>
    if q.2.Endpoint = endpoint then
      UpstreamCall.repoWatch q.2.Repo q.2.Refspec ::
        refUpdateCallsForRemote q.1 q.2 repo
    else [])

/-- The RPC calls `tryReconnect` issues across all repositories of the
server (under `reposMu`), assuming every RPC succeeds. -/
def tryReconnectCalls (endpoint : String)
    (repos : List (String × ServerRepo)) : List UpstreamCall :=
  repos.flatMap (fun p => reestablishRepoCalls endpoint p.2)

/-- The concrete repository of the C2 witness (the spec's scenario 1/2
shape): one remote peerA at endpoint endpointE1, an overwrite ref "main"
upstreamed to peerA, and a non-overwrite ref "dev". -/
def c2Repo : ServerRepo :=
  ⟨[(peerA, ⟨endpointE1, "r1", "rs1"⟩)],
   [("main", ⟨peerA, true⟩), ("dev", ⟨peerA, false⟩)],
   [("main", ⟨"b0", "master", ["op1"]⟩), ("dev", ⟨"b1", "master", []⟩)]⟩

/-- Structure `backoff.ExponentialBackOff` as configured by `remoteBackOff`; all
durations in milliseconds. -/
structure ExponentialBackOff where
  InitialInterval : Nat
  Multiplier : Nat
  MaxElapsedTime : Nat
deriving DecidableEq

/-- Function `remoteBackOff()`: initial interval 500 ms, multiplier 2, max elapsed
time 1 minute (60000 ms). -/
def remoteBackOff : ExponentialBackOff := ⟨500, 2, 60000⟩

/-- Modelled from the spec: the backoff package
(`internal/pkg/backoff`, not under src/) produces an exponential schedule —
the interval before the n-th retry is the initial interval scaled by the
multiplier n times. -/
def backoffInterval (p : ExponentialBackOff) (n : Nat) : Nat :=
  p.InitialInterval * p.Multiplier ^ n

/-- Modelled from the spec: the retry loop stops — returning the last error,
which the watcher then only logs — once the total elapsed time exceeds the
max-elapsed-time budget; otherwise it sleeps for the next interval and
retries. -/
def nextBackOff (p : ExponentialBackOff) (n elapsed : Nat) : Option Nat :=
  if p.MaxElapsedTime < elapsed then none else some (backoffInterval p n)

/-- System-level state for the interaction of `closeAndRemoveClient` with
the disconnect watcher: connections are numbered, `conn` is the registry,
`watchers` the still-running disconnect watchers (endpoint, watched
connection), `retriesStarted` the endpoints for which a disconnect watcher
has started a reconnect retry loop, and `closeCalled` the connections on
which `Close` was invoked. -/
structure SysState where
  conn : List (String × Nat)
  watchers : List (String × Nat)
  retriesStarted : List String
  closeCalled : List Nat
  serverClosed : Bool
  nextId : Nat
deriving DecidableEq

/-- The server's initial system state. -/
def sysInit : SysState := ⟨[], [], [], [], false, 0⟩

/-- A successful `getOrCreateClient` at system level: when the endpoint is
absent, a fresh connection is created, stored, and its disconnect watcher
started; when present, the existing connection is returned and nothing
changes. -/
def sysGetOrCreate (s : SysState) (e : String) : SysState :=
  if (alookup s.conn e).isSome then s
  else
    { s with conn := mapInsert s.conn e s.nextId,
             watchers := s.watchers ++ [(e, s.nextId)],
             nextId := s.nextId + 1 }

/-- Operation `closeAndRemoveClient` at system level: panics (`none`) when the
endpoint is absent; otherwise removes the registry entry and calls `Close`
on the stored connection.  The connection's disconnect watcher is not
cancelled — nothing in `closeAndRemoveClient` touches the goroutine. -/
def sysCloseAndRemove (s : SysState) (e : String) : Option SysState :=
  match alookup s.conn e with
  | none => none
  | some id =>
    some { s with conn := mapDelete s.conn e,
                  closeCalled := s.closeCalled ++ [id] }

/-- Connection `id`'s disconnect signal fires and its watcher (for endpoint
`e`) runs: if the server is closed the watcher just exits; otherwise it
deletes whatever entry is currently stored under `e` — the Go code runs
`delete(sr.conn, endpoint)` without checking that the entry is still the
watched connection — and starts the reconnect retry loop for `e`.  `none`
when no such watcher is running. -/
def sysDisconnectFires (s : SysState) (e : String) (id : Nat) :
    Option SysState :=
  if (e, id) ∈ s.watchers then
    some (if s.serverClosed then
            { s with watchers := s.watchers.filter (fun w => w ≠ (e, id)) }
          else
            { s with watchers := s.watchers.filter (fun w => w ≠ (e, id)),
                     conn := mapDelete s.conn e,
                     retriesStarted := s.retriesStarted ++ [e] })
  else none

/-- The system state of the C10 scenario after connection 0 to peerA is
created and then explicitly closed: the registry entry is gone but
connection 0's watcher is still running. -/
def sysAfterClose : SysState :=
  (sysCloseAndRemove (sysGetOrCreate sysInit peerA) peerA).getD sysInit

/-- The C10 scenario state after a second, live connection 1 to peerA is
created while connection 0's watcher is still running. -/
def sysAfterRecreate : SysState := sysGetOrCreate sysAfterClose peerA

/-- The C10 scenario state after closed connection 0's disconnect signal
finally fires: its stale watcher deletes the entry now holding live
connection 1 and starts a retry loop. -/
def sysAfterStaleFire : SysState :=
  (sysDisconnectFires sysAfterRecreate peerA 0).getD sysInit

theorem alookup_eq_none {α : Type} (m : List (String × α)) (k : String) :
    alookup m k = none ↔ ∀ p ∈ m, p.1 ≠ k := by
  induction m with
  | nil => simp [alookup]
  | cons hd tl ih =>
    obtain ⟨k', v'⟩ := hd
    simp only [alookup]
    by_cases h : k' = k
    · simp [h]
    · simp [h, ih]

theorem alookup_mem {α : Type} {m : List (String × α)} {k : String} {v : α}
    (h : alookup m k = some v) : (k, v) ∈ m := by
  induction m with
  | nil => simp [alookup] at h
  | cons hd tl ih =>
    obtain ⟨k', v'⟩ := hd
    simp only [alookup] at h
    by_cases hk : k' = k
    · subst hk
      simp at h
      simp [h]
    · simp [hk] at h
      exact List.mem_cons_of_mem _ (ih h)

theorem mem_alookup {α : Type} {m : List (String × α)} {k : String} {v : α}
    (hm : keysNodup m) (h : (k, v) ∈ m) : alookup m k = some v := by
  induction m with
  | nil => simp at h
  | cons hd tl ih =>
    obtain ⟨k', v'⟩ := hd
    simp only [keysNodup, List.map_cons, List.nodup_cons] at hm
    rcases List.mem_cons.mp h with h1 | h1
    · rw [Prod.mk.injEq] at h1
      obtain ⟨rfl, rfl⟩ := h1
      simp [alookup]
    · have hne : k' ≠ k := by
        intro he
        subst he
        exact hm.1 (List.mem_map.mpr ⟨(k', v), h1, rfl⟩)
      simp only [alookup, if_neg hne]
      exact ih hm.2 h1

theorem keysNodup_mapInsert {α : Type} (m : List (String × α)) (k : String)
    (v : α) (hm : keysNodup m) : keysNodup (mapInsert m k v) := by
  unfold mapInsert
  by_cases h : (alookup m k).isSome
  · rw [if_pos h]
    unfold keysNodup at hm ⊢
    have : (m.map (fun p => if p.1 = k then (k, v) else p)).map Prod.fst
        = m.map Prod.fst := by
      simp only [List.map_map]
      apply List.map_congr_left
      intro p _
      by_cases hp : p.1 = k
      · simp [Function.comp, hp]
      · simp [Function.comp, hp]
    rw [this]
    exact hm
  · rw [if_neg h]
    unfold keysNodup at hm ⊢
    rw [List.map_append]
    simp only [List.map_cons, List.map_nil]
    rw [List.nodup_append]
    refine ⟨hm, List.nodup_singleton k, ?_⟩
    intro a ha hb
    simp at hb
    subst hb
    rw [Option.not_isSome_iff_eq_none] at h
    rw [alookup_eq_none] at h
    obtain ⟨p, hp, hpa⟩ := List.mem_map.mp ha
    subst hpa
    exact h p hp rfl

theorem keysNodup_mapDelete {α : Type} (m : List (String × α)) (k : String)
    (hm : keysNodup m) : keysNodup (mapDelete m k) := by
  unfold keysNodup mapDelete at *
  exact List.Nodup.sublist (List.Sublist.map Prod.fst (List.filter_sublist m)) hm

theorem alookup_mapDelete_self {α : Type} (m : List (String × α)) (k : String) :
    alookup (mapDelete m k) k = none := by
  rw [alookup_eq_none]
  intro p hp
  have := List.of_mem_filter hp
  simpa using this

theorem mapInsert_of_absent {α : Type} (m : List (String × α)) (k : String)
    (v : α) (h : alookup m k = none) : mapInsert m k v = m ++ [(k, v)] := by
  unfold mapInsert
  rw [h]
  rfl

theorem alookup_append_single {α : Type} (m : List (String × α)) (k : String)
    (v : α) (h : alookup m k = none) : alookup (m ++ [(k, v)]) k = some v := by
  induction m with
  | nil => simp [alookup]
  | cons hd tl ih =>
    obtain ⟨k', v'⟩ := hd
    simp only [alookup] at h
    by_cases hk : k' = k
    · simp [hk] at h
    · simp only [List.cons_append, alookup, if_neg hk]
      simp only [if_neg hk] at h
      exact ih h

theorem getOrCreateClient_cases {C : Type} (sr : ServerRemotes C)
    (e : String) (r : GetOrCreateResult C)
    (h : getOrCreateClient sr e = some r) :
    r.state.conn = sr.conn ∨
      (alookup sr.conn e = none ∧
        ∃ cl, r.state.conn = mapInsert sr.conn e cl) := by
  unfold getOrCreateClient at h
  split at h
  · cases h
  · split at h
    · injection h with h
      subst h
      left
      rfl
    · rename_i hl
      split at h
      · injection h with h
        subst h
        left
        rfl
      · rename_i cl hok
        injection h with h
        subst h
        right
        exact ⟨hl, cl, rfl⟩

theorem closeAndRemoveClient_conn {C : Type} (sr : ServerRemotes C)
    (e : String) (r : CloseRemoveResult C)
    (h : closeAndRemoveClient sr e = some r) :
    r.state.conn = mapDelete sr.conn e := by
  unfold closeAndRemoveClient at h
  split at h
  · cases h
  · injection h with h
    subst h
    rfl

theorem configureRemoteClientFunc_conn {C : Type} (sr : ServerRemotes C)
    (f : String → Except String C) (sr' : ServerRemotes C)
    (h : configureRemoteClientFunc sr f = some sr') :
    sr'.conn = sr.conn := by
  unfold configureRemoteClientFunc at h
  split at h
  · cases h
  · injection h with h
    subst h
    rfl

theorem registryStep_keysNodup {C : Type} {sr sr' : ServerRemotes C}
    (hs : RegistryStep sr sr') (hm : keysNodup sr.conn) :
    keysNodup sr'.conn := by
  cases hs
  · rename_i f hc
    rw [configureRemoteClientFunc_conn _ _ _ hc]
    exact hm
  · exact hm
  · rename_i e r hg
    rcases getOrCreateClient_cases _ e r hg with hc | ⟨_, cl, hc⟩
    · rw [hc]; exact hm
    · rw [hc]; exact keysNodup_mapInsert sr.conn e cl hm
  · rename_i e r hc
    rw [closeAndRemoveClient_conn _ e r hc]
    exact keysNodup_mapDelete sr.conn e hm
  · rename_i e
    exact keysNodup_mapDelete sr.conn e hm

theorem reachable_keysNodup {C : Type} {sr : ServerRemotes C}
    (h : ReachableRemotes sr) : keysNodup sr.conn := by
  induction h with
  | init => simp [keysNodup]
  | step sr sr' _ hs ih => exact registryStep_keysNodup hs ih

theorem countP_key_le_one {α : Type} (e : String) :
    ∀ m : List (String × α), keysNodup m →
      m.countP (fun p => p.1 == e) ≤ 1 := by
  intro m
  induction m with
  | nil => intro _; simp
  | cons hd tl ih =>
    intro hm
    obtain ⟨k, v⟩ := hd
    simp only [keysNodup, List.map_cons, List.nodup_cons] at hm
    rw [List.countP_cons]
    by_cases hk : k = e
    · have hz : tl.countP (fun p => p.1 == e) = 0 := by
        rw [List.countP_eq_zero]
        intro p hp
        simp only [beq_iff_eq]
        intro hpe
        exact hm.1 (List.mem_map.mpr ⟨p, hp, hpe.trans hk.symm⟩)
      simp [hz, hk]
    · have hbeq : ((k, v).1 == e) = false := by simp [hk]
      simp only [hbeq, if_false, Bool.false_eq_true, add_zero]
      exact ih hm.2

/-- C1: in every reachable state of the connection registry there is at most
one entry per endpoint (the `conn` map never holds two live connections for
the same endpoint), every registry operation — `configureRemoteClientFunc`,
`getClient`, `getOrCreateClient`, `closeAndRemoveClient`, and the disconnect
watcher's `delete` — preserves this (they are exactly the transitions of
`RegistryStep`, over which `ReachableRemotes` is closed), and the absence of
an entry for an endpoint means no entry at all is stored for it
("disconnected"). -/
theorem registry_at_most_one_entry_per_endpoint {C : Type}
    (sr : ServerRemotes C) (h : ReachableRemotes sr) (e : String) :
    sr.conn.countP (fun p => p.1 == e) ≤ 1 ∧
      (alookup sr.conn e = none ↔ ∀ p ∈ sr.conn, p.1 ≠ e) :=
  ⟨countP_key_le_one e sr.conn (reachable_keysNodup h),
   alookup_eq_none sr.conn e⟩

/-- The connection factory used by the C1 witness scenario. -/
def c1Factory : String → Except String Nat := fun _ => Except.ok 3

/-- A concrete reachable registry state for the C1 witness: configure the
factory, then create a connection for endpoint endpointA. -/
def c1State : ServerRemotes Nat := ⟨[(endpointA, 3)], some c1Factory⟩

theorem c1State_reachable : ReachableRemotes c1State := by
  have h0 : ReachableRemotes (⟨[], none⟩ : ServerRemotes Nat) :=
    ReachableRemotes.init
  have h1 : ReachableRemotes (⟨[], some c1Factory⟩ : ServerRemotes Nat) :=
    ReachableRemotes.step _ _ h0 (RegistryStep.configure _ c1Factory _ rfl)
  exact ReachableRemotes.step _ _ h1
    (RegistryStep.getOrCreate _ endpointA
      ⟨Except.ok 3, c1State, true, true, true, true⟩ rfl)

/-- Witness for C1 at the concrete reachable state `c1State`. -/
theorem registry_at_most_one_entry_per_endpoint_witness :
    ReachableRemotes c1State ∧
      (c1State.conn.countP (fun p => p.1 == endpointA) ≤ 1 ∧
        (alookup c1State.conn endpointA = none ↔ ∀ p ∈ c1State.conn, p.1 ≠ endpointA)) :=
  ⟨c1State_reachable,
   registry_at_most_one_entry_per_endpoint c1State c1State_reachable endpointA⟩

/-- C3: `getOrCreateClient` on an endpoint with an existing connection
returns that connection without invoking the factory and leaves the state
unchanged; on an absent endpoint with a succeeding factory it invokes the
factory, registers the ref-update and symbolic-ref-update push callbacks,
starts the disconnect watcher, stores the new connection under the
endpoint, and returns it. -/
theorem getOrCreateClient_get_or_create {C : Type} (sr : ServerRemotes C)
    (f : String → Except String C) (e : String)
    (hf : sr.newClient = some f) :
    (∀ c, alookup sr.conn e = some c →
      getOrCreateClient sr e =
        some ⟨Except.ok c, sr, false, false, false, false⟩) ∧
    (alookup sr.conn e = none → ∀ c, f e = Except.ok c →
      ∃ r, getOrCreateClient sr e = some r ∧
        r.result = Except.ok c ∧
        r.factoryInvoked = true ∧
        r.refUpdateCallbackSet = true ∧
        r.refUpdateSymbolicCallbackSet = true ∧
        r.disconnectWatcherStarted = true ∧
        r.state.newClient = sr.newClient ∧
        r.state.conn = mapInsert sr.conn e c ∧
        alookup r.state.conn e = some c) := by
  constructor
  · intro c hc
    unfold getOrCreateClient
    rw [hf, hc]
  · intro habs c hok
    refine ⟨⟨Except.ok c, { sr with conn := mapInsert sr.conn e c },
      true, true, true, true⟩, ?_, rfl, rfl, rfl, rfl, rfl, rfl, rfl, ?_⟩
    · simp only [getOrCreateClient, hf, habs, hok]
    · show alookup (mapInsert sr.conn e c) e = some c
      rw [mapInsert_of_absent sr.conn e c habs]
      exact alookup_append_single sr.conn e c habs

/-- The connection factory used by the C3 witness scenario. -/
def c3Factory : String → Except String Nat := fun _ => Except.ok 7

/-- The registry state used by the C3 witness: endpoint endpointA connected,
endpoint endpointB absent. -/
def c3State : ServerRemotes Nat := ⟨[(endpointA, 3)], some c3Factory⟩

/-- Witness for C3 at a concrete state, covering the create branch for the
absent endpoint endpointB. -/
theorem getOrCreateClient_get_or_create_witness :
    c3State.newClient = some c3Factory ∧
      ((∀ c, alookup c3State.conn endpointB = some c →
        getOrCreateClient c3State endpointB =
          some ⟨Except.ok c, c3State, false, false, false, false⟩) ∧
      (alookup c3State.conn endpointB = none → ∀ c, c3Factory endpointB = Except.ok c →
        ∃ r, getOrCreateClient c3State endpointB = some r ∧
          r.result = Except.ok c ∧
          r.factoryInvoked = true ∧
          r.refUpdateCallbackSet = true ∧
          r.refUpdateSymbolicCallbackSet = true ∧
          r.disconnectWatcherStarted = true ∧
          r.state.newClient = c3State.newClient ∧
          r.state.conn = mapInsert c3State.conn endpointB c ∧
          alookup r.state.conn endpointB = some c)) :=
  ⟨rfl, getOrCreateClient_get_or_create c3State c3Factory endpointB rfl⟩

/-- C7: when the factory fails during a direct `getOrCreateClient` call the
error is returned to the caller, the registry is left unchanged (the whole
state is returned as it was), and no disconnect watcher — hence no automatic
retry loop — is started. -/
theorem getOrCreateClient_factory_error {C : Type} (sr : ServerRemotes C)
    (f : String → Except String C) (e msg : String)
    (hf : sr.newClient = some f) (habs : alookup sr.conn e = none)
    (herr : f e = Except.error msg) :
    getOrCreateClient sr e =
      some ⟨Except.error msg, sr, true, false, false, false⟩ := by
  simp only [getOrCreateClient, hf, habs, herr]

/-- The always-failing connection factory of the C7 witness. -/
def c7Factory : String → Except String Nat := fun _ => Except.error dialFailedMsg

/-- The registry state of the C7 witness. -/
def c7State : ServerRemotes Nat := ⟨[], some c7Factory⟩

/-- Witness for C7 at a concrete state and endpoint. -/
theorem getOrCreateClient_factory_error_witness :
    c7State.newClient = some c7Factory ∧
      alookup c7State.conn endpointA = none ∧
      c7Factory endpointA = Except.error dialFailedMsg ∧
      getOrCreateClient c7State endpointA =
        some ⟨Except.error dialFailedMsg, c7State, true, false, false, false⟩ :=
  ⟨rfl, rfl, rfl,
   getOrCreateClient_factory_error c7State c7Factory endpointA dialFailedMsg
     rfl rfl rfl⟩

/-- C8: `closeAndRemoveClient` on an endpoint with no registry entry panics
(a contract violation, modelled as `none`) instead of silently returning;
with an existing entry it removes the entry (a subsequent lookup finds
nothing) and calls `Close` on the stored connection. -/
theorem closeAndRemoveClient_contract {C : Type} (sr : ServerRemotes C)
    (e : String) :
    (alookup sr.conn e = none → closeAndRemoveClient sr e = none) ∧
    (∀ c, alookup sr.conn e = some c →
      ∃ r, closeAndRemoveClient sr e = some r ∧
        r.closedClient = c ∧
        r.state.conn = mapDelete sr.conn e ∧
        alookup r.state.conn e = none ∧
        r.state.newClient = sr.newClient) := by
  constructor
  · intro habs
    unfold closeAndRemoveClient
    rw [habs]
  · intro c hc
    refine ⟨⟨{ sr with conn := mapDelete sr.conn e }, c⟩, ?_, rfl, rfl, ?_, rfl⟩
    · unfold closeAndRemoveClient
      rw [hc]
    · exact alookup_mapDelete_self sr.conn e

/-- The registry state of the C8 witness: endpoint endpointA connected, endpoint
endpointB absent. -/
def c8State : ServerRemotes Nat := ⟨[(endpointA, 3)], none⟩

/-- Witness for C8 at a concrete state: the panic branch for endpointB and the
remove branch for endpointA. -/
theorem closeAndRemoveClient_contract_witness :
    ((alookup c8State.conn endpointB = none → closeAndRemoveClient c8State endpointB = none) ∧
      (∀ c, alookup c8State.conn endpointB = some c →
        ∃ r, closeAndRemoveClient c8State endpointB = some r ∧
          r.closedClient = c ∧
          r.state.conn = mapDelete c8State.conn endpointB ∧
          alookup r.state.conn endpointB = none ∧
          r.state.newClient = c8State.newClient)) ∧
    closeAndRemoveClient c8State endpointB = none ∧
    (∃ r, closeAndRemoveClient c8State endpointA = some r ∧ r.closedClient = 3) := by
  refine ⟨closeAndRemoveClient_contract c8State endpointB, ?_, ?_⟩
  · exact (closeAndRemoveClient_contract c8State endpointB).1 rfl
  · obtain ⟨r, hr, hc, -, -, -⟩ :=
      (closeAndRemoveClient_contract c8State endpointA).2 3 rfl
    exact ⟨r, hr, hc⟩

/-- C9: a second call to `ConfigureRemoteClientFunc` — i.e. a call in a
state where the factory is already set — panics (modelled as `none`) instead
of silently overriding the configured factory. -/
theorem configureRemoteClientFunc_twice_panics {C : Type}
    (sr : ServerRemotes C) (f g : String → Except String C)
    (hf : sr.newClient = some f) :
    configureRemoteClientFunc sr g = none := by
  unfold configureRemoteClientFunc
  rw [hf]

/-- The two factories of the C9 witness. -/
def c9FactoryA : String → Except String Nat := fun _ => Except.ok 1

/-- The second factory in the C9 witness, whose configuration must panic. -/
def c9FactoryB : String → Except String Nat := fun _ => Except.ok 2

/-- Witness for C9: configuring a second factory on a state holding the
first one panics. -/
theorem configureRemoteClientFunc_twice_panics_witness :
    (ServerRemotes.mk ([] : List (String × Nat)) (some c9FactoryA)).newClient
        = some c9FactoryA ∧
      configureRemoteClientFunc
        (ServerRemotes.mk ([] : List (String × Nat)) (some c9FactoryA))
        c9FactoryB = none :=
  ⟨rfl, configureRemoteClientFunc_twice_panics _ c9FactoryA c9FactoryB rfl⟩

/-- C6: the reconnection retry policy `remoteBackOff` has initial interval
500 ms, multiplier 2, and a 1-minute (60000 ms) total elapsed-time budget;
the resulting intervals start at 500 ms, double each retry (hence are
non-decreasing), and the retry loop stops — after which the failure is only
logged — exactly when the elapsed time exceeds the budget. -/
theorem remote_backoff_schedule :
    remoteBackOff.InitialInterval = 500 ∧
    remoteBackOff.Multiplier = 2 ∧
    remoteBackOff.MaxElapsedTime = 60000 ∧
    backoffInterval remoteBackOff 0 = 500 ∧
    (∀ n, backoffInterval remoteBackOff (n + 1) =
      2 * backoffInterval remoteBackOff n) ∧
    (∀ n, backoffInterval remoteBackOff n ≤
      backoffInterval remoteBackOff (n + 1)) ∧
    (∀ n elapsed, nextBackOff remoteBackOff n elapsed = none ↔
      60000 < elapsed) := by
  refine ⟨rfl, rfl, rfl, rfl, ?_, ?_, ?_⟩
  · intro n
    simp [backoffInterval, remoteBackOff, pow_succ]
    ring
  · intro n
    simp only [backoffInterval, remoteBackOff]
    exact Nat.mul_le_mul_left 500
      (Nat.pow_le_pow_right (by decide) (Nat.le_succ n))
  · intro n elapsed
    unfold nextBackOff
    by_cases h : remoteBackOff.MaxElapsedTime < elapsed
    · simp only [if_pos h]
      simpa [remoteBackOff] using h
    · simp only [if_neg h]
      constructor
      · intro hc
        cases hc
      · intro hc
        exact absurd hc (by simpa [remoteBackOff] using h)

/-- Witness for C6 at concrete retry indices and elapsed times. -/
theorem remote_backoff_schedule_witness :
    backoffInterval remoteBackOff 1 = 1000 ∧
      nextBackOff remoteBackOff 3 60001 = none ∧
      nextBackOff remoteBackOff 3 60000 = some 4000 := by
  refine ⟨?_, ?_, rfl⟩
  · have h := remote_backoff_schedule.2.2.2.2.1 0
    simpa [remote_backoff_schedule.2.2.2.1] using h
  · exact (remote_backoff_schedule.2.2.2.2.2.2 3 60001).mpr (by decide)

/-- C4: when the disconnect signal for an endpoint fires and the server is
not shutting down, the watcher's very first action is the deletion of that
endpoint's registry entry; every reconnect dial occurs strictly later in the
trace, and after the deletion a lookup for the endpoint finds nothing. -/
theorem disconnect_removes_entry_before_redial (e : String)
    (outcomes : List Bool) :
    (watcherTrace false e outcomes).head? =
        some (WatcherEvent.removeEntry e) ∧
    (∀ i c, (watcherTrace false e outcomes)[i]? =
        some (WatcherEvent.dialAttempt e c) → 1 ≤ i) ∧
    (∀ m : List (String × Nat), alookup (mapDelete m e) e = none) := by
  refine ⟨?_, ?_, ?_⟩
  · simp [watcherTrace]
  · intro i c h
    cases i with
    | zero => simp [watcherTrace] at h
    | succ n => exact Nat.succ_le_succ (Nat.zero_le n)
  · intro m
    exact alookup_mapDelete_self m e

/-- Witness for C4 at a concrete endpoint and retry outcome sequence. -/
theorem disconnect_removes_entry_before_redial_witness :
    (watcherTrace false peerA [false, true]).head? =
        some (WatcherEvent.removeEntry peerA) ∧
      alookup (mapDelete [(peerA, (0 : Nat))] peerA) peerA = none :=
  ⟨(disconnect_removes_entry_before_redial peerA [false, true]).1,
   (disconnect_removes_entry_before_redial peerA [false, true]).2.2
     [(peerA, 0)]⟩

theorem mem_watcherTrace_shape (e : String) (outcomes : List Bool)
    (ev : WatcherEvent) (hev : ev ∈ watcherTrace false e outcomes) :
    ev = WatcherEvent.removeEntry e ∨
    ev = WatcherEvent.dialAttempt e CtxKind.serverBg ∨
    ev = WatcherEvent.reestablishRpc e CtxKind.background ∨
    ev = WatcherEvent.backoffSleep CtxKind.background := by
  simp only [watcherTrace, Bool.false_eq_true, if_false, List.mem_cons,
    List.mem_flatMap, attemptEvents] at hev
  rcases hev with h | ⟨b, hb, h⟩
  · exact Or.inl h
  · rcases h with h1 | h1
    · exact Or.inr (Or.inl h1)
    · cases b
      · simp at h1
        exact Or.inr (Or.inr (Or.inr h1))
      · simp at h1
        exact Or.inr (Or.inr (Or.inl h1))

/-- C5 counterexample: the claim, stated at the concrete endpoint peerA
with one failed retry attempt, is false — although the watcher exits
immediately when the server is closed, it is not the case that every
suspension point of the retry path runs under a context that shutdown
cancels: the backoff sleep (and the re-establishment RPCs) run under
`context.Background()`, which the server's shutdown never cancels. -/
theorem watcher_shutdown_ctx_counterexample :
    ¬ (watcherTrace true peerA [false] = [] ∧
       ∀ ev ∈ watcherTrace false peerA [false],
         eventRespectsShutdown ev = true) := by
  decide

/-- C5 amended: if the server is shutting down when the disconnect signal
fires, the watcher exits without starting a retry loop (empty trace); the
reconnect dial runs under the server's background context, which shutdown
cancels, but the retry loop's backoff sleeps and re-establishment RPCs run
under `context.Background()`, which shutdown does not cancel. -/
theorem watcher_shutdown_amended (e : String) (outcomes : List Bool) :
    watcherTrace true e outcomes = [] ∧
    (∀ ev ∈ watcherTrace false e outcomes, ∀ e2 c,
      ev = WatcherEvent.dialAttempt e2 c →
        c = CtxKind.serverBg ∧ ctxRespectsShutdown c = true) ∧
    (∀ ev ∈ watcherTrace false e outcomes, ∀ c,
      ev = WatcherEvent.backoffSleep c →
        c = CtxKind.background ∧ ctxRespectsShutdown c = false) ∧
    (∀ ev ∈ watcherTrace false e outcomes, ∀ e2 c,
      ev = WatcherEvent.reestablishRpc e2 c →
        c = CtxKind.background ∧ ctxRespectsShutdown c = false) := by
  refine ⟨by simp [watcherTrace], ?_, ?_, ?_⟩
  · intro ev hev e2 c hEq
    subst hEq
    rcases mem_watcherTrace_shape e outcomes _ hev with h | h | h | h
    · cases h
    · injection h with h1 h2
      exact ⟨h2, by rw [h2]; rfl⟩
    · cases h
    · cases h
  · intro ev hev c hEq
    subst hEq
    rcases mem_watcherTrace_shape e outcomes _ hev with h | h | h | h
    · cases h
    · cases h
    · cases h
    · injection h with h1
      exact ⟨h1, by rw [h1]; rfl⟩
  · intro ev hev e2 c hEq
    subst hEq
    rcases mem_watcherTrace_shape e outcomes _ hev with h | h | h | h
    · cases h
    · cases h
    · injection h with h1 h2
      exact ⟨h2, by rw [h2]; rfl⟩
    · cases h

/-- Witness for the amended C5 at a concrete endpoint and outcome list. -/
theorem watcher_shutdown_amended_witness :
    watcherTrace true peerA [false] = [] :=
  (watcher_shutdown_amended peerA [false]).1

/-- C10: explicitly closing the connection for peerA via
`closeAndRemoveClient` does not cancel its disconnect watcher.  In the
concrete scenario — create connection 0, close it explicitly, create a new
live connection 1 for the same endpoint, then connection 0's disconnect
signal fires with the server not closed — the stale watcher is still
running after the close, and when it fires it deletes the registry entry
that now holds the live connection 1 and starts a reconnect retry loop for
peerA. -/
theorem stale_watcher_removes_newer_connection :
    (sysCloseAndRemove (sysGetOrCreate sysInit peerA) peerA).isSome ∧
    (peerA, 0) ∈ sysAfterClose.watchers ∧
    (0 : Nat) ∈ sysAfterClose.closeCalled ∧
    alookup sysAfterRecreate.conn peerA = some 1 ∧
    (peerA, 0) ∈ sysAfterRecreate.watchers ∧
    sysAfterRecreate.serverClosed = false ∧
    (sysDisconnectFires sysAfterRecreate peerA 0).isSome ∧
    alookup sysAfterStaleFire.conn peerA = none ∧
    peerA ∈ sysAfterStaleFire.retriesStarted := by
  decide

theorem mem_refUpdateCallsForRemote (rn : String)
    (remote : RepoRemoteConfiguration) (repo : ServerRepo)
    (hRefs : keysNodup repo.refs) (c : UpstreamCall) :
    c ∈ refUpdateCallsForRemote rn remote repo ↔
      ∃ r o, alookup repo.refs r = some ⟨rn, true⟩ ∧
        alookup repo.refdb r = some o ∧
        c = UpstreamCall.refUpdate remote.Repo r true
          o.gitBase o.gitBranch o.history := by
  unfold refUpdateCallsForRemote
  rw [List.mem_filterMap]
  constructor
  · rintro ⟨⟨r, rc⟩, hmem, hf⟩
    dsimp only at hf
    split at hf
    · rename_i o hdb
      split at hf
      · rename_i hcond
        injection hf with hf
        refine ⟨r, o, ?_, hdb, hf.symm⟩
        have hrc : rc = ⟨rn, true⟩ := by
          obtain ⟨u, ow⟩ := rc
          obtain ⟨h1, h2⟩ := hcond
          simp only at h1 h2
          rw [h1, h2]
        rw [← hrc]
        exact mem_alookup hRefs hmem
      · cases hf
    · cases hf
  · rintro ⟨r, o, href, hdb, rfl⟩
    refine ⟨(r, ⟨rn, true⟩), alookup_mem href, ?_⟩
    simp [hdb]

theorem mem_reestablishRepoCalls (E : String) (repo : ServerRepo)
    (c : UpstreamCall) :
    c ∈ reestablishRepoCalls E repo ↔
      ∃ rn remote, (rn, remote) ∈ repo.remotes ∧ remote.Endpoint = E ∧
        (c = UpstreamCall.repoWatch remote.Repo remote.Refspec ∨
         c ∈ refUpdateCallsForRemote rn remote repo) := by
  unfold reestablishRepoCalls
  rw [List.mem_flatMap]
  constructor
  · rintro ⟨⟨rn, remote⟩, hmem, hin⟩
    dsimp only at hin
    by_cases hE : remote.Endpoint = E
    · rw [if_pos hE] at hin
      rcases List.mem_cons.mp hin with h | h
      · exact ⟨rn, remote, hmem, hE, Or.inl h⟩
      · exact ⟨rn, remote, hmem, hE, Or.inr h⟩
    · rw [if_neg hE] at hin
      cases hin
  · rintro ⟨rn, remote, hmem, hE, hc⟩
    refine ⟨(rn, remote), hmem, ?_⟩
    dsimp only
    rw [if_pos hE]
    rcases hc with rfl | h
    · exact List.mem_cons_self _ _
    · exact List.mem_cons_of_mem _ h

/-- C2: during re-establishment after reconnecting to endpoint E, a watch
call is issued for the repo/refspec of exactly the remotes whose endpoint is
E, and a forced ref update — `Force: true`, carrying the ref's current base
revision, branch, and full history — is pushed for ref r exactly when some
remote of the repository has endpoint E and the repository's ref config for
r names that remote as upstream with overwrite true and r exists in the ref
database; no other ref receives a forced push (every `RefUpdate` in the
trace satisfies the characterization, with `force` necessarily true).  The
server-level trace is the concatenation of the per-repository traces. -/
theorem reestablish_watch_and_forced_updates (E : String) (repo : ServerRepo)
    (hRem : keysNodup repo.remotes) (hRefs : keysNodup repo.refs) :
    (∀ R rs, UpstreamCall.repoWatch R rs ∈ reestablishRepoCalls E repo ↔
      ∃ rn remote, alookup repo.remotes rn = some remote ∧
        remote.Endpoint = E ∧ remote.Repo = R ∧ remote.Refspec = rs) ∧
    (∀ R r fc b br h,
      UpstreamCall.refUpdate R r fc b br h ∈ reestablishRepoCalls E repo ↔
      (fc = true ∧ ∃ rn remote o,
        alookup repo.remotes rn = some remote ∧
        remote.Endpoint = E ∧ remote.Repo = R ∧
        alookup repo.refs r = some ⟨rn, true⟩ ∧
        alookup repo.refdb r = some o ∧
        b = o.gitBase ∧ br = o.gitBranch ∧ h = o.history)) ∧
    (∀ repos (c : UpstreamCall), c ∈ tryReconnectCalls E repos ↔
      ∃ p ∈ repos, c ∈ reestablishRepoCalls E p.2) := by
  refine ⟨?_, ?_, ?_⟩
  · intro R rs
    constructor
    · intro hmem
      rcases (mem_reestablishRepoCalls E repo _).mp hmem
        with ⟨rn, remote, hmem2, hE, h | h⟩
      · injection h with h1 h2
        exact ⟨rn, remote, mem_alookup hRem hmem2, hE, h1.symm, h2.symm⟩
      · obtain ⟨r, o, -, -, heq⟩ :=
          (mem_refUpdateCallsForRemote rn remote repo hRefs _).mp h
        cases heq
    · rintro ⟨rn, remote, hrem, hE, rfl, rfl⟩
      exact (mem_reestablishRepoCalls E repo _).mpr
        ⟨rn, remote, alookup_mem hrem, hE, Or.inl rfl⟩
  · intro R r fc b br h
    constructor
    · intro hmem
      rcases (mem_reestablishRepoCalls E repo _).mp hmem
        with ⟨rn, remote, hmem2, hE, hc | hc⟩
      · cases hc
      · obtain ⟨r2, o, href, hdb, heq⟩ :=
          (mem_refUpdateCallsForRemote rn remote repo hRefs _).mp hc
        injection heq with h1 h2 h3 h4 h5 h6
        subst h2
        exact ⟨h3, rn, remote, o, mem_alookup hRem hmem2, hE, h1.symm,
          href, hdb, h4, h5, h6⟩
    · rintro ⟨rfl, rn, remote, o, hrem, hE, hRepo, href, hdb, rfl, rfl, rfl⟩
      subst hRepo
      exact (mem_reestablishRepoCalls E repo _).mpr
        ⟨rn, remote, alookup_mem hrem, hE,
         Or.inr ((mem_refUpdateCallsForRemote rn remote repo hRefs _).mpr
           ⟨r, o, href, hdb, rfl⟩)⟩
  · intro repos c
    unfold tryReconnectCalls
    rw [List.mem_flatMap]

/-- Witness for C2 at the concrete repository `c2Repo` and endpoint endpointE1. -/
theorem reestablish_watch_and_forced_updates_witness :
    keysNodup c2Repo.remotes ∧ keysNodup c2Repo.refs ∧
      (∀ R rs, UpstreamCall.repoWatch R rs ∈ reestablishRepoCalls endpointE1 c2Repo ↔
        ∃ rn remote, alookup c2Repo.remotes rn = some remote ∧
          remote.Endpoint = endpointE1 ∧ remote.Repo = R ∧ remote.Refspec = rs) :=
  ⟨by decide, by decide,
   (reestablish_watch_and_forced_updates endpointE1 c2Repo
     (by decide) (by decide)).1⟩

end Zap
